import Mathlib

/-!
Verification of the gossip-key rotation sidecars of this repository
(control-plane/subcommand/rotation-sidecar/command.go and
control-plane/subcommand/rotatoe/command.go) against their design
specification.

The embedding is a shallow, executable model of the two `installKey`
routines and of one iteration ("tick") of each `Run` select loop.  The
external Consul API is modelled by a `World`: a map from the index of a
`KeyringList` call to its response (`none` standing for an RPC error),
plus the success of the single `KeyringInstall` call.  The results of
`KeyringUse` and `KeyringRemove` are not part of the `World` because the
Go code never branches on them: in rotation-sidecar the `continue` after
a failed `KeyringUse` is the last statement of its range-loop body (a
no-op), and `KeyringRemove` errors are only logged; in rotatoe both are
only logged.  Every RPC issued is recorded, in order, in a trace of
`Call` values, so temporal claims become statements about traces.

The md5 checksum (rotation-sidecar) and the crc32 checksum (rotatoe) are
modelled by an abstract fingerprint function `hash : String -> Nat`: the
code only ever compares fingerprints for equality, so each claim is
stated for every such function, and counterexamples instantiate it with
`String.length` (the real md5/crc32 also distinguish the concrete inputs
used there).
-/

/-- One entry of the slice returned by `KeyringList`, mirroring
`api.KeyringResponse`: `Keys` maps a key to the number of members
reporting it, `PrimaryKeys` likewise for primary keys, `NumNodes` is the
total member count reported by that response.  Go map iteration order is
unspecified; the model fixes the association-list order. -/
structure KeyringResponse where
  Keys : List (String × Nat)
  PrimaryKeys : List (String × Nat)
  NumNodes : Nat
deriving DecidableEq

/-- One observable external call made by the sidecar.  `list` records the
response the world returned (so that a trace carries the observation a
later call was based on); `getLeader` records the leadership RPC of the
rotation-sidecar event branch; `readFile` records a read of the watched
file. -/
inductive Call where
  | getLeader
  | readFile
  | list (resp : Option (List KeyringResponse))
  | install (k : String)
  | use (k : String)
  | remove (k : String)
deriving DecidableEq

/-- Result of an `installKey` run: `ok` models `return nil`, `err` models
returning a non-nil error, `panicked` models a Go runtime panic (index
out of range on an empty `KeyringList` response). -/
inductive KOutcome where
  | ok
  | err
  | panicked
deriving DecidableEq

/-- The environment: `listResp n` is the response to the n-th
`KeyringList` call of the current `installKey` run (`none` = RPC error),
`installOk` tells whether the single `KeyringInstall` call succeeds. -/
structure World where
  listResp : Nat → Option (List KeyringResponse)
  installOk : Bool

/-- Running state threaded through `installKey`: the trace of calls made
so far and the number of `KeyringList` calls made so far (the index into
`World.listResp`). -/
structure St where
  trace : List Call
  nList : Nat
deriving DecidableEq

/-- Appends one call to the trace. -/
def emit (s : St) (c : Call) : St := ⟨s.trace ++ [c], s.nList⟩

namespace RotationSidecar

/-- First inner range-loop of rotation-sidecar `installKey` (lines
169-177): for each key of `keyringList[0].Keys`, if it equals the new
key, call `KeyringUse(newKey)`.  A failed use only logs and `continue`s,
which is the last statement of the loop body, so the result does not
affect control flow. -/
def promoteLoop (newKey : String) : List (String × Nat) → St → St
  | [], s => s
  | (x, _) :: rest, s =>
    if x = newKey then promoteLoop newKey rest (emit s (Call.use newKey))
    else promoteLoop newKey rest s

/-- Second inner range-loop of rotation-sidecar `installKey` (lines
178-185): for each key of `keyringList[0].Keys` other than the new key,
call `KeyringRemove(x)`; a failure is only logged. -/
def removeLoop (newKey : String) : List (String × Nat) → St → St
  | [], s => s
  | (x, _) :: rest, s =>
    if x ≠ newKey then removeLoop newKey rest (emit s (Call.remove x))
    else removeLoop newKey rest s

/-- The `for i := 0; i < 100; i++` poll loop of rotation-sidecar
`installKey` (lines 162-188): each iteration calls `KeyringList`; on
error it `continue`s; on success it indexes `keyringList[0]` (a panic if
the slice is empty), runs the promote loop then the remove loop over
`keyringList[0].Keys`, and returns nil.  Exhausting the 100 iterations
also returns nil (line 189). -/
def pollLoop (w : World) (newKey : String) : Nat → St → St × KOutcome
  | 0, s => (s, KOutcome.ok)
  | fuel + 1, s =>
    let r := w.listResp s.nList
    let s1 : St := ⟨s.trace ++ [Call.list r], s.nList + 1⟩
    match r with
    | none => pollLoop w newKey fuel s1
    | some [] => (s1, KOutcome.panicked)
    | some (r0 :: _) =>
      (removeLoop newKey r0.Keys (promoteLoop newKey r0.Keys s1), KOutcome.ok)

/-- rotation-sidecar `installKey` (lines 149-191): an initial
`KeyringList` (whose error is returned; its first entry is dereferenced
at line 155, a panic when the slice is empty), then `KeyringInstall`
(whose error is returned), then the poll loop. -/
def installKey (w : World) (newKey : String) : St × KOutcome :=
  let r := w.listResp 0
  let s1 : St := ⟨[Call.list r], 1⟩
  match r with
  | none => (s1, KOutcome.err)
  | some [] => (s1, KOutcome.panicked)
  | some (_ :: _) =>
    let s2 : St := ⟨s1.trace ++ [Call.install newKey], 1⟩
    if w.installOk then pollLoop w newKey 100 s2 else (s2, KOutcome.err)

end RotationSidecar

namespace Rotatoe

/-- The `for i := 0; i < 100; i++` poll loop of rotatoe `installKey`
(lines 134-153): each iteration calls `KeyringList`; on error it
`continue`s; on success it dereferences `keyringList[0]` (a panic on an
empty slice); if the new key is present in `keyringList[0].Keys` it calls
`KeyringUse(newKey)` (the error only logged) and returns nil; otherwise
it continues.  Exhaustion returns nil (line 154). -/
def pollLoop (w : World) (newKey : String) : Nat → St → St × KOutcome
  | 0, s => (s, KOutcome.ok)
  | fuel + 1, s =>
    let r := w.listResp s.nList
    let s1 : St := ⟨s.trace ++ [Call.list r], s.nList + 1⟩
    match r with
    | none => pollLoop w newKey fuel s1
    | some [] => (s1, KOutcome.panicked)
    | some (r0 :: _) =>
      if (List.lookup newKey r0.Keys).isSome then
        (emit s1 (Call.use newKey), KOutcome.ok)
      else pollLoop w newKey fuel s1

/-- rotatoe `installKey` (lines 128-155): `KeyringInstall` whose error is
only logged (never returned), then the poll loop.  Note the function can
only return nil or panic. -/
def installKey (w : World) (newKey : String) : St × KOutcome :=
  pollLoop w newKey 100 ⟨[Call.install newKey], 0⟩

end Rotatoe

/-- Events one iteration of the rotation-sidecar select loop can wake on:
a file write event, a file remove event (which re-arms the watch and
falls through to the write case), the 600s reconcile timer, a watcher
error, and a shutdown signal. -/
inductive Event where
  | write
  | fileRemove
  | timer
  | watchErr
  | signal
deriving DecidableEq

/-- What one loop iteration does to the loop itself: `continues` (the
`for` loop runs another iteration), `blocks` (the branch blocks forever:
the watcher-error branch sends on the unbuffered `errCh`, which has no
receiver until the unreachable code after the loop), `panics` (the
iteration panicked). -/
inductive TickOutcome where
  | continues
  | blocks
  | panics
deriving DecidableEq

/-- Result of one loop iteration: the committed fingerprint afterwards,
the calls made, and what happens to the loop. -/
structure TickResult where
  cur : Nat
  calls : List Call
  outcome : TickOutcome
deriving DecidableEq

/-- Models `strings.Split(leader, ":")[0]`: the prefix of `leader` before
the first colon (the whole string when there is no colon). -/
def leaderHost (leader : String) : String :=
  (leader.toList.takeWhile (fun c => c ≠ ':')).asString

namespace RotationSidecar

/-- The body of the write case of rotation-sidecar `Run` (lines 120-133):
read the watched file (`none` = read error, which only logs and
`continue`s); fingerprint it; when the fingerprint differs from the
committed one, run `installKey` and commit the new fingerprint exactly
when it returned nil. -/
def detectAndRotate (hash : String → Nat) (w : World) (readRes : Option String)
    (cur : Nat) (pre : List Call) : TickResult :=
  match readRes with
  | none => ⟨cur, pre ++ [Call.readFile], TickOutcome.continues⟩
  | some data =>
    let checksum := hash data
    if checksum ≠ cur then
      match installKey w data with
      | (s, KOutcome.ok) =>
        ⟨checksum, pre ++ [Call.readFile] ++ s.trace, TickOutcome.continues⟩
      | (s, KOutcome.err) =>
        ⟨cur, pre ++ [Call.readFile] ++ s.trace, TickOutcome.continues⟩
      | (s, KOutcome.panicked) =>
        ⟨cur, pre ++ [Call.readFile] ++ s.trace, TickOutcome.panics⟩
    else ⟨cur, pre ++ [Call.readFile], TickOutcome.continues⟩

/-- The watcher-event branch of rotation-sidecar `Run` (lines 109-134):
call `Status().Leader()` (its error is discarded, so an RPC error leaves
`leader` empty); `continue` when the leader is empty or its host part
differs from `POD_IP`; otherwise run detection.  `leader` is the string
the RPC returned. -/
def eventBranch (hash : String → Nat) (w : World) (leader podIP : String)
    (readRes : Option String) (cur : Nat) : TickResult :=
  if leader = "" then ⟨cur, [Call.getLeader], TickOutcome.continues⟩
  else if leaderHost leader ≠ podIP then ⟨cur, [Call.getLeader], TickOutcome.continues⟩
  else detectAndRotate hash w readRes cur [Call.getLeader]

/-- One iteration of the rotation-sidecar `Run` select loop (lines
107-142).  The timer branch only logs "Reconcile Timer."; the
watcher-error branch sends on `errCh`, which blocks forever; the signal
branch executes `break`, which in Go exits only the `select`, so the
`for` loop continues. -/
def runTick (hash : String → Nat) (w : World) (leader podIP : String)
    (ev : Event) (readRes : Option String) (cur : Nat) : TickResult :=
  match ev with
  | Event.write => eventBranch hash w leader podIP readRes cur
  | Event.fileRemove => eventBranch hash w leader podIP readRes cur
  | Event.timer => ⟨cur, [], TickOutcome.continues⟩
  | Event.watchErr => ⟨cur, [], TickOutcome.blocks⟩
  | Event.signal => ⟨cur, [], TickOutcome.continues⟩

end RotationSidecar

namespace Rotatoe

/-- One iteration of the rotatoe `Run` polling loop (lines 108-123): read
the file (on a read error Go leaves the contents nil, i.e. empty, and the
loop proceeds anyway), fingerprint it, and if the fingerprint differs
commit it FIRST (line 118) and then call `installKey`.  There is no
leadership check of any kind. -/
def runTick (hash : String → Nat) (w : World) (readRes : Option String)
    (cur : Nat) : TickResult :=
  let data := readRes.getD ""
  let chksum := hash data
  if chksum ≠ cur then
    match installKey w data with
    | (s, KOutcome.panicked) => ⟨chksum, Call.readFile :: s.trace, TickOutcome.panics⟩
    | (s, _) => ⟨chksum, Call.readFile :: s.trace, TickOutcome.continues⟩
  else ⟨cur, [Call.readFile], TickOutcome.continues⟩

end Rotatoe

/-- A call that mutates the cluster keyring. -/
def Call.isMutating : Call → Bool
  | Call.install _ => true
  | Call.use _ => true
  | Call.remove _ => true
  | _ => false

/-- A `KeyringUse` call. -/
def Call.isUse : Call → Bool
  | Call.use _ => true
  | _ => false

/-- A `KeyringRemove` call. -/
def Call.isRemove : Call → Bool
  | Call.remove _ => true
  | _ => false

/-- A `KeyringList` call. -/
def Call.isList : Call → Bool
  | Call.list _ => true
  | _ => false

/-- The mutating keyring calls of a trace. -/
def mutatingCalls (t : List Call) : List Call := List.filter Call.isMutating t

/-- Number of `KeyringList` calls in a trace. -/
def countList (t : List Call) : Nat := (List.filter Call.isList t).length

/-- Fold step for `removeOnlyAfterInstall`: the state is (all removes so
far were preceded by the install of k, the install of k has occurred). -/
def roaiStep (k : String) : Bool × Bool → Call → Bool × Bool
  | (ok, inst), Call.install k2 => if k2 = k then (ok, true) else (ok, inst)
  | (ok, inst), Call.remove _ => (ok && inst, inst)
  | st, _ => st

/-- True iff every `KeyringRemove` call in the trace occurs after the
`KeyringInstall` call of key `k`. -/
def removeOnlyAfterInstall (k : String) (t : List Call) : Bool :=
  (List.foldl (roaiStep k) (true, false) t).1

/-- Whether key `k` appears in the keys of the first entry of a
`KeyringList` response (what both Go variants actually inspect). -/
def keyPresent (k : String) : List KeyringResponse → Bool
  | [] => false
  | r :: _ => (List.lookup k r.Keys).isSome

/-- Fold step for `useOnlyAfterPresence`: the state is (all `use k` calls
so far were covered, the most recent `KeyringList` observation reported
`k` present). -/
def uapStep (k : String) : Bool × Bool → Call → Bool × Bool
  | (ok, _), Call.list r =>
    (ok, match r with | some rs => keyPresent k rs | none => false)
  | (ok, has), Call.use k2 => (if k2 = k then ok && has else ok, has)
  | st, _ => st

/-- True iff every `KeyringUse k` call in the trace is preceded by a
successful `KeyringList` observation, with no failed one in between,
whose first entry reports `k` present. -/
def useOnlyAfterPresence (k : String) (t : List Call) : Bool :=
  (List.foldl (uapStep k) (true, false) t).1

/-- A keyring holding only an old key "A" on a 1-member cluster. -/
def respA : KeyringResponse := ⟨[("A", 1)], [("A", 1)], 1⟩

/-- World whose every `KeyringList` call reports only key "A"; installs
succeed. -/
def wOnlyA : World := ⟨fun _ => some [respA], true⟩

/-- A keyring where new key "B" is reported by 1 of 3 members (partial
propagation): old key "A" held by 2, `NumNodes` is 3. -/
def respSpread : KeyringResponse := ⟨[("B", 1), ("A", 2)], [("A", 2)], 3⟩

/-- World whose every `KeyringList` call reports partial propagation of
"B"; installs succeed. -/
def wSpread : World := ⟨fun _ => some [respSpread], true⟩

/-- World whose `KeyringList` calls succeed but return an empty response
slice. -/
def wEmptyResp : World := ⟨fun _ => some [], true⟩

/-- World where every keyring RPC fails. -/
def wAllFail : World := ⟨fun _ => none, false⟩

/-- Key `k` at the head of an association list is found. -/
theorem lookup_cons_self {k : String} {v : Nat} {rest : List (String × Nat)} :
    List.lookup k ((k, v) :: rest) = some v := by
  simp [List.lookup]

/-- A non-matching head does not affect an association-list lookup. -/
theorem lookup_cons_ne {k x : String} {v : Nat} {rest : List (String × Nat)}
    (h : x ≠ k) : List.lookup k ((x, v) :: rest) = List.lookup k rest := by
  simp [List.lookup, beq_eq_false_iff_ne.mpr (Ne.symm h)]

/-- A filter by a predicate false on every element is empty. -/
theorem filter_eq_nil_of_false {p : Call → Bool} {u : List Call}
    (h : ∀ c ∈ u, p c = false) : List.filter p u = [] := by
  rw [List.filter_eq_nil_iff]
  intro a ha
  simp [h a ha]

/-- Once the install of `k` has been seen with no prior bad remove, the
fold state of `removeOnlyAfterInstall` stays (true, true) forever. -/
theorem roai_absorb (k : String) : ∀ t : List Call,
    List.foldl (roaiStep k) (true, true) t = (true, true)
  | [] => rfl
  | c :: t => by
    have h : roaiStep k (true, true) c = (true, true) := by
      cases c <;> simp [roaiStep]
    rw [List.foldl_cons, h, roai_absorb k t]

/-- The promote loop only appends `KeyringUse newKey` calls to the trace,
and appends one only when the new key is present in the iterated keys. -/
theorem RotationSidecar.promoteLoop_ext (k : String) :
    ∀ (keys : List (String × Nat)) (s : St),
      ∃ u, (RotationSidecar.promoteLoop k keys s).trace = s.trace ++ u ∧
        (∀ c ∈ u, c = Call.use k) ∧
        (u ≠ [] → (List.lookup k keys).isSome = true)
  | [], s => ⟨[], by simp [RotationSidecar.promoteLoop], by simp, by simp⟩
  | (x, v) :: rest, s => by
    by_cases hx : x = k
    · obtain ⟨u, hu, hall, _⟩ :=
        RotationSidecar.promoteLoop_ext k rest (emit s (Call.use k))
      refine ⟨Call.use k :: u, ?_, ?_, ?_⟩
      · simp only [RotationSidecar.promoteLoop, hx, if_pos]
        rw [hu]
        simp [emit]
      · intro c hc
        rcases List.mem_cons.mp hc with h1 | h1
        · exact h1
        · exact hall c h1
      · intro _
        rw [hx, lookup_cons_self]
        rfl
    · obtain ⟨u, hu, hall, hne⟩ := RotationSidecar.promoteLoop_ext k rest s
      refine ⟨u, ?_, hall, ?_⟩
      · simp only [RotationSidecar.promoteLoop, hx, if_neg, ite_false]
        exact hu
      · intro h
        rw [lookup_cons_ne hx]
        exact hne h

/-- The remove loop only appends `KeyringRemove` calls to the trace. -/
theorem RotationSidecar.removeLoop_ext (k : String) :
    ∀ (keys : List (String × Nat)) (s : St),
      ∃ u, (RotationSidecar.removeLoop k keys s).trace = s.trace ++ u ∧
        ∀ c ∈ u, Call.isRemove c = true
  | [], s => ⟨[], by simp [RotationSidecar.removeLoop], by simp⟩
  | (x, v) :: rest, s => by
    by_cases hx : x = k
    · obtain ⟨u, hu, hall⟩ := RotationSidecar.removeLoop_ext k rest s
      refine ⟨u, ?_, hall⟩
      simp only [RotationSidecar.removeLoop, hx]
      simpa using hu
    · obtain ⟨u, hu, hall⟩ :=
        RotationSidecar.removeLoop_ext k rest (emit s (Call.remove x))
      refine ⟨Call.remove x :: u, ?_, ?_⟩
      · simp only [RotationSidecar.removeLoop, hx]
        rw [if_pos hx, hu]
        simp [emit]
      · intro c hc
        rcases List.mem_cons.mp hc with h1 | h1
        · rw [h1]; rfl
        · exact hall c h1

/-- The rotation-sidecar poll loop only appends to the trace. -/
theorem rsPollLoop_ext (w : World) (k : String) :
    ∀ (fuel : Nat) (s : St),
      ∃ u, ((RotationSidecar.pollLoop w k fuel s).1).trace = s.trace ++ u
  | 0, s => ⟨[], by simp [RotationSidecar.pollLoop]⟩
  | fuel + 1, s => by
    rcases hr : w.listResp s.nList with _ | rs
    · obtain ⟨u, hu⟩ := rsPollLoop_ext w k fuel
        ⟨s.trace ++ [Call.list none], s.nList + 1⟩
      refine ⟨Call.list none :: u, ?_⟩
      simp only [RotationSidecar.pollLoop, hr]
      rw [hu]
      simp
    · rcases rs with _ | ⟨r0, rest⟩
      · refine ⟨[Call.list (some [])], ?_⟩
        simp [RotationSidecar.pollLoop, hr]
      · obtain ⟨u1, hu1, _, _⟩ := RotationSidecar.promoteLoop_ext k r0.Keys
          ⟨s.trace ++ [Call.list (some (r0 :: rest))], s.nList + 1⟩
        obtain ⟨u2, hu2, _⟩ := RotationSidecar.removeLoop_ext k r0.Keys
          (RotationSidecar.promoteLoop k r0.Keys
            ⟨s.trace ++ [Call.list (some (r0 :: rest))], s.nList + 1⟩)
        refine ⟨Call.list (some (r0 :: rest)) :: (u1 ++ u2), ?_⟩
        simp only [RotationSidecar.pollLoop, hr]
        rw [hu2, hu1]
        simp

/-- The rotatoe poll loop only appends to the trace, and never a
`KeyringRemove`. -/
theorem rtPollLoop_ext (w : World) (k : String) :
    ∀ (fuel : Nat) (s : St),
      ∃ u, ((Rotatoe.pollLoop w k fuel s).1).trace = s.trace ++ u ∧
        ∀ c ∈ u, Call.isRemove c = false
  | 0, s => ⟨[], by simp [Rotatoe.pollLoop], by simp⟩
  | fuel + 1, s => by
    rcases hr : w.listResp s.nList with _ | rs
    · obtain ⟨u, hu, hall⟩ := rtPollLoop_ext w k fuel
        ⟨s.trace ++ [Call.list none], s.nList + 1⟩
      refine ⟨Call.list none :: u, ?_, ?_⟩
      · simp only [Rotatoe.pollLoop, hr]
        rw [hu]
        simp
      · intro c hc
        rcases List.mem_cons.mp hc with h1 | h1
        · rw [h1]; rfl
        · exact hall c h1
    · rcases rs with _ | ⟨r0, rest⟩
      · refine ⟨[Call.list (some [])], ?_, ?_⟩
        · simp [Rotatoe.pollLoop, hr]
        · intro c hc
          rcases List.mem_cons.mp hc with h1 | h1
          · rw [h1]; rfl
          · simp at h1
      · by_cases hp : (List.lookup k r0.Keys).isSome
        · refine ⟨[Call.list (some (r0 :: rest)), Call.use k], ?_, ?_⟩
          · simp [Rotatoe.pollLoop, hr, hp, emit]
          · intro c hc
            rcases List.mem_cons.mp hc with h1 | h1
            · rw [h1]; rfl
            · rcases List.mem_cons.mp h1 with h2 | h2
              · rw [h2]; rfl
              · simp at h2
        · obtain ⟨u, hu, hall⟩ := rtPollLoop_ext w k fuel
            ⟨s.trace ++ [Call.list (some (r0 :: rest))], s.nList + 1⟩
          refine ⟨Call.list (some (r0 :: rest)) :: u, ?_, ?_⟩
          · simp only [Rotatoe.pollLoop, hr, hp, ite_false, Bool.false_eq_true]
            rw [hu]
            simp
          · intro c hc
            rcases List.mem_cons.mp hc with h1 | h1
            · rw [h1]; rfl
            · exact hall c h1

/-- `uapStep` ignores install calls. -/
theorem uapStep_install (k : String) (st : Bool × Bool) (x : String) :
    uapStep k st (Call.install x) = st := by
  obtain ⟨a, b⟩ := st
  rfl

/-- Folding `uapStep` over a block of `use k` calls from a covered state
stays covered. -/
theorem uap_absorb_uses (k : String) : ∀ u : List Call,
    (∀ c ∈ u, c = Call.use k) →
    List.foldl (uapStep k) (true, true) u = (true, true)
  | [], _ => rfl
  | c :: u, h => by
    have hc : c = Call.use k := h c (List.mem_cons_self c u)
    subst hc
    have hstep : uapStep k (true, true) (Call.use k) = (true, true) := by
      simp [uapStep]
    rw [List.foldl_cons, hstep]
    exact uap_absorb_uses k u (fun c hc => h c (List.mem_cons_of_mem _ hc))

/-- Folding `uapStep` over remove calls changes nothing. -/
theorem uap_ignores_removes (k : String) : ∀ (u : List Call) (st : Bool × Bool),
    (∀ c ∈ u, Call.isRemove c = true) →
    List.foldl (uapStep k) st u = st
  | [], _, _ => rfl
  | c :: u, st, h => by
    have hc := h c (List.mem_cons_self c u)
    have hstep : uapStep k st c = st := by
      obtain ⟨a, b⟩ := st
      cases c <;> simp [Call.isRemove] at hc ⊢
      rfl
    rw [List.foldl_cons, hstep]
    exact uap_ignores_removes k u st (fun c hc => h c (List.mem_cons_of_mem _ hc))

/-- Through the rotation-sidecar poll loop, every `KeyringUse` call is
covered by a preceding presence observation. -/
theorem rsPollLoop_uap (w : World) (k : String) :
    ∀ (fuel : Nat) (s : St) (b : Bool),
      List.foldl (uapStep k) (true, false) s.trace = (true, b) →
      (List.foldl (uapStep k) (true, false)
        ((RotationSidecar.pollLoop w k fuel s).1).trace).1 = true
  | 0, s, b, h => by simp [RotationSidecar.pollLoop, h]
  | fuel + 1, s, b, h => by
    rcases hr : w.listResp s.nList with _ | rs
    · have h1 : List.foldl (uapStep k) (true, false)
          (s.trace ++ [Call.list none]) = (true, false) := by
        rw [List.foldl_append, h]
        rfl
      simp only [RotationSidecar.pollLoop, hr]
      exact rsPollLoop_uap w k fuel
        ⟨s.trace ++ [Call.list none], s.nList + 1⟩ false h1
    · rcases rs with _ | ⟨r0, rest⟩
      · simp only [RotationSidecar.pollLoop, hr]
        rw [List.foldl_append, h]
        rfl
      · obtain ⟨u1, hu1, hall1, hne1⟩ := RotationSidecar.promoteLoop_ext k r0.Keys
          ⟨s.trace ++ [Call.list (some (r0 :: rest))], s.nList + 1⟩
        obtain ⟨u2, hu2, hall2⟩ := RotationSidecar.removeLoop_ext k r0.Keys
          (RotationSidecar.promoteLoop k r0.Keys
            ⟨s.trace ++ [Call.list (some (r0 :: rest))], s.nList + 1⟩)
        simp only [RotationSidecar.pollLoop, hr]
        rw [hu2, hu1]
        simp only [List.foldl_append]
        rw [h]
        have hfold1 : List.foldl (uapStep k) (true, b) [Call.list (some (r0 :: rest))]
            = (true, (List.lookup k r0.Keys).isSome) := rfl
        rw [hfold1]
        by_cases hu : u1 = []
        · subst hu
          rw [List.foldl_nil, uap_ignores_removes k u2 _ hall2]
        · rw [hne1 hu, uap_absorb_uses k u1 hall1,
            uap_ignores_removes k u2 _ hall2]

/-- Through the rotatoe poll loop, every `KeyringUse` call is covered by
a preceding presence observation. -/
theorem rtPollLoop_uap (w : World) (k : String) :
    ∀ (fuel : Nat) (s : St) (b : Bool),
      List.foldl (uapStep k) (true, false) s.trace = (true, b) →
      (List.foldl (uapStep k) (true, false)
        ((Rotatoe.pollLoop w k fuel s).1).trace).1 = true
  | 0, s, b, h => by simp [Rotatoe.pollLoop, h]
  | fuel + 1, s, b, h => by
    rcases hr : w.listResp s.nList with _ | rs
    · have h1 : List.foldl (uapStep k) (true, false)
          (s.trace ++ [Call.list none]) = (true, false) := by
        rw [List.foldl_append, h]
        rfl
      simp only [Rotatoe.pollLoop, hr]
      exact rtPollLoop_uap w k fuel
        ⟨s.trace ++ [Call.list none], s.nList + 1⟩ false h1
    · rcases rs with _ | ⟨r0, rest⟩
      · simp only [Rotatoe.pollLoop, hr]
        rw [List.foldl_append, h]
        rfl
      · by_cases hp : (List.lookup k r0.Keys).isSome
        · simp only [Rotatoe.pollLoop, hr, hp, if_true, emit]
          rw [List.foldl_append, List.foldl_append, h]
          have hfold1 : List.foldl (uapStep k) (true, b)
              [Call.list (some (r0 :: rest))]
              = (true, (List.lookup k r0.Keys).isSome) := rfl
          rw [hfold1, hp]
          simp [uapStep]
        · have h1 : List.foldl (uapStep k) (true, false)
              (s.trace ++ [Call.list (some (r0 :: rest))])
              = (true, (List.lookup k r0.Keys).isSome) := by
            rw [List.foldl_append, h]
            rfl
          simp only [Rotatoe.pollLoop, hr, hp, ite_false, Bool.false_eq_true]
          exact rtPollLoop_uap w k fuel
            ⟨s.trace ++ [Call.list (some (r0 :: rest))], s.nList + 1⟩ _ h1

/-- Every `KeyringUse` in a rotation-sidecar `installKey` run follows a
presence observation. -/
theorem rsInstallKey_uap (w : World) (k : String) :
    useOnlyAfterPresence k (RotationSidecar.installKey w k).1.trace = true := by
  unfold useOnlyAfterPresence
  rcases hr : w.listResp 0 with _ | rs
  · simp [RotationSidecar.installKey, hr, uapStep]
  · rcases rs with _ | ⟨r0, rest⟩
    · simp [RotationSidecar.installKey, hr, uapStep]
    · by_cases hI : w.installOk
      · have h : List.foldl (uapStep k) (true, false)
            (St.trace ⟨[Call.list (some (r0 :: rest)), Call.install k], 1⟩)
            = (true, keyPresent k (r0 :: rest)) := rfl
        simp only [RotationSidecar.installKey, hr, hI, if_true]
        exact rsPollLoop_uap w k 100
          ⟨[Call.list (some (r0 :: rest)), Call.install k], 1⟩ _ h
      · simp [RotationSidecar.installKey, hr, hI, uapStep]

/-- Every `KeyringUse` in a rotatoe `installKey` run follows a presence
observation. -/
theorem rtInstallKey_uap (w : World) (k : String) :
    useOnlyAfterPresence k (Rotatoe.installKey w k).1.trace = true := by
  unfold useOnlyAfterPresence
  have h : List.foldl (uapStep k) (true, false)
      (St.trace ⟨[Call.install k], 0⟩) = (true, false) := rfl
  exact rtPollLoop_uap w k 100 ⟨[Call.install k], 0⟩ false h

/-- C1 counterexample: a world whose keyring reports only old key "A"
(new key "B" never listed as propagated).  rotation-sidecar `installKey`
then issues `KeyringRemove("A")` although `KeyringUse("B")` was never
called at all, let alone succeeded: the trace contains a remove and no
use.  So `Remove(oldKey)` runs before (indeed without) a successful
`Promote(newKey)`. -/
theorem c1_remove_before_promote_cex :
    Call.remove "A" ∈ (RotationSidecar.installKey wOnlyA "B").1.trace ∧
    List.filter Call.isUse (RotationSidecar.installKey wOnlyA "B").1.trace = [] := by
  decide

/-- C1 (amended): in rotation-sidecar `installKey`, every `KeyringRemove`
call happens only after the `KeyringInstall` call for the new key (but
regardless of whether any `KeyringUse` promotion was attempted or
succeeded); the rotatoe variant never issues a `KeyringRemove` at all. -/
theorem c1_remove_only_after_install (w : World) (k : String) :
    removeOnlyAfterInstall k (RotationSidecar.installKey w k).1.trace = true ∧
    List.filter Call.isRemove (Rotatoe.installKey w k).1.trace = [] := by
  constructor
  · unfold removeOnlyAfterInstall
    rcases hr : w.listResp 0 with _ | rs
    · simp [RotationSidecar.installKey, hr, roaiStep]
    · rcases rs with _ | ⟨r0, rest⟩
      · simp [RotationSidecar.installKey, hr, roaiStep]
      · by_cases hI : w.installOk
        · obtain ⟨u, hu⟩ := rsPollLoop_ext w k 100
            ⟨[Call.list (some (r0 :: rest)), Call.install k], 1⟩
          simp only [RotationSidecar.installKey, hr, hI, if_true,
            List.singleton_append]
          rw [hu]
          have h2 : List.foldl (roaiStep k) (true, false)
              (St.trace ⟨[Call.list (some (r0 :: rest)), Call.install k], 1⟩)
              = (true, true) := by
            simp [roaiStep]
          rw [List.foldl_append, h2, roai_absorb]
        · simp [RotationSidecar.installKey, hr, hI, roaiStep]
  · obtain ⟨u, hu, hall⟩ := rtPollLoop_ext w k 100 ⟨[Call.install k], 0⟩
    unfold Rotatoe.installKey
    rw [hu, List.filter_append, filter_eq_nil_of_false hall]
    rfl

/-- C2 counterexample: a world whose every `KeyringList` response reports
new key "B" possessed by only 1 member while the same response reports
`NumNodes = 3` (and old key "A" held by 2).  rotation-sidecar `installKey`
still calls `KeyringUse("B")`, because the code (line 169-176) only
checks membership of the key in `keyringList[0].Keys`, never the
member-count: promotion happens without the count observed equal to the
total derived from that same response (1 of 3). -/
theorem c2_promote_without_full_count_cex :
    (RotationSidecar.installKey wSpread "B").1.trace =
      [Call.list (some [respSpread]), Call.install "B",
       Call.list (some [respSpread]), Call.use "B", Call.remove "A"] ∧
    List.lookup "B" respSpread.Keys = some 1 ∧ respSpread.NumNodes = 3 := by
  decide

/-- C2 (amended): in both variants, `KeyringUse(newKey)` is called only
after a successful `KeyringList` observation (the most recent one) whose
first entry reports the new key PRESENT in its keys map; neither variant
compares the reported member-count against the total member count. -/
theorem c2_promote_only_after_presence (w : World) (k : String) :
    useOnlyAfterPresence k (RotationSidecar.installKey w k).1.trace = true ∧
    useOnlyAfterPresence k (Rotatoe.installKey w k).1.trace = true :=
  ⟨rsInstallKey_uap w k, rtInstallKey_uap w k⟩

/-- A `use` call is not a `list` call. -/
theorem isList_false_of_use {c : Call} {k : String} (h : c = Call.use k) :
    Call.isList c = false := by
  rw [h]
  rfl

/-- A `remove` call is not a `list` call. -/
theorem isList_false_of_isRemove {c : Call} (h : Call.isRemove c = true) :
    Call.isList c = false := by
  cases c <;> simp [Call.isRemove, Call.isList] at h ⊢

/-- C3 counterexample: the rotatoe variant performs no leadership check
whatsoever: on a tick that detects changed content it issues mutating
keyring calls (here `KeyringInstall("B")`) although its trace contains no
leadership query at all — the instance mutates the keyring although it
never determined the leader. -/
theorem c3_rotatoe_mutates_without_leader_check_cex :
    Call.getLeader ∉ (Rotatoe.runTick String.length wSpread (some "B") 0).calls ∧
    Call.install "B" ∈ (Rotatoe.runTick String.length wSpread (some "B") 0).calls := by
  decide

/-- C3 (amended): in the rotation-sidecar variant, every tick whose
leadership check does not authorize the instance (empty leader, i.e. an
RPC error, or leader host differing from POD_IP) issues zero mutating
keyring calls and leaves the committed fingerprint unchanged; the rotatoe
variant performs no leadership check at all and mutates regardless. -/
theorem c3_unauthorized_tick_no_mutation (hash : String → Nat) (w : World)
    (leader podIP : String) (ev : Event) (readRes : Option String) (cur : Nat)
    (h : leader = "" ∨ leaderHost leader ≠ podIP) :
    mutatingCalls (RotationSidecar.runTick hash w leader podIP ev readRes cur).calls = [] ∧
    (RotationSidecar.runTick hash w leader podIP ev readRes cur).cur = cur := by
  have hb : mutatingCalls (RotationSidecar.eventBranch hash w leader podIP readRes cur).calls = [] ∧
      (RotationSidecar.eventBranch hash w leader podIP readRes cur).cur = cur := by
    by_cases h0 : leader = ""
    · simp [RotationSidecar.eventBranch, h0, mutatingCalls, Call.isMutating]
    · rcases h with h1 | h1
      · exact absurd h1 h0
      · rw [RotationSidecar.eventBranch, if_neg h0, if_pos h1]
        exact ⟨rfl, rfl⟩
  cases ev
  · exact hb
  · exact hb
  · exact ⟨rfl, rfl⟩
  · exact ⟨rfl, rfl⟩
  · exact ⟨rfl, rfl⟩

/-- C3 witness: a concrete unauthorized tick (leader 10.0.0.1, own
address 10.0.0.2) on a write event with changed readable content. -/
theorem c3_unauthorized_tick_no_mutation_witness :
    ("10.0.0.1:8300" = "" ∨ leaderHost "10.0.0.1:8300" ≠ "10.0.0.2") ∧
    (mutatingCalls (RotationSidecar.runTick String.length wOnlyA "10.0.0.1:8300"
        "10.0.0.2" Event.write (some "B") 0).calls = [] ∧
      (RotationSidecar.runTick String.length wOnlyA "10.0.0.1:8300"
        "10.0.0.2" Event.write (some "B") 0).cur = 0) :=
  ⟨Or.inr (by decide),
    c3_unauthorized_tick_no_mutation String.length wOnlyA "10.0.0.1:8300"
      "10.0.0.2" Event.write (some "B") 0 (Or.inr (by decide))⟩

/-- C4 counterexample: an empty (but successfully read) buffer IS
installed as a key by rotation-sidecar.  Prior committed fingerprint is
that of content "a"; the tick reads an empty buffer, its fingerprint
differs, and `installKey("")` runs: the trace contains
`KeyringInstall("")`. -/
theorem c4_empty_buffer_installed_cex :
    Call.install "" ∈ (RotationSidecar.runTick String.length wOnlyA
      "10.0.0.7:8300" "10.0.0.7" Event.write (some "") 1).calls := by
  decide

/-- C4 (amended): a read ERROR is indeed treated as unchanged by the
rotation-sidecar loop (the branch only logs and continues: no keyring
call, fingerprint untouched); but an empty successfully-read buffer is
fingerprinted like any other content and is installed as a key when its
fingerprint differs from the committed one. -/
theorem c4_read_error_unchanged (hash : String → Nat) (w : World)
    (leader podIP : String) (ev : Event) (cur : Nat) :
    (RotationSidecar.runTick hash w leader podIP ev none cur).cur = cur ∧
    mutatingCalls (RotationSidecar.runTick hash w leader podIP ev none cur).calls = [] := by
  have hb : (RotationSidecar.eventBranch hash w leader podIP none cur).cur = cur ∧
      mutatingCalls (RotationSidecar.eventBranch hash w leader podIP none cur).calls = [] := by
    by_cases h0 : leader = ""
    · simp [RotationSidecar.eventBranch, h0, mutatingCalls, Call.isMutating]
    · by_cases h1 : leaderHost leader ≠ podIP
      · rw [RotationSidecar.eventBranch, if_neg h0, if_pos h1]
        exact ⟨rfl, rfl⟩
      · rw [RotationSidecar.eventBranch, if_neg h0, if_neg h1]
        exact ⟨rfl, rfl⟩
  cases ev
  · exact hb
  · exact hb
  · exact ⟨rfl, rfl⟩
  · exact ⟨rfl, rfl⟩
  · exact ⟨rfl, rfl⟩

set_option maxRecDepth 4000 in
/-- C5 counterexample: in rotatoe, with every keyring RPC failing, a tick
that detects changed content commits the new fingerprint (`cur` becomes
the fingerprint of "a") even though the rotation attempt achieved
nothing: no `KeyringUse` ever happened (all 100 `KeyringList` polls
errored), so the attempt did not reach any success state. -/
theorem c5_commit_on_failed_attempt_cex :
    (Rotatoe.runTick String.length wAllFail (some "a") 0).cur = 1 ∧
    List.filter Call.isUse (Rotatoe.runTick String.length wAllFail (some "a") 0).calls = [] := by
  decide

/-- C5 (amended): rotation-sidecar commits the fingerprint exactly when
`installKey` returns nil — which per C10 does not imply the rotation
succeeded; it never commits on detection or when `installKey` returns an
error.  The rotatoe variant commits the fingerprint at detection time,
before the attempt runs, regardless of its outcome. -/
theorem c5_commit_only_on_nil_return (hash : String → Nat) (w : World)
    (leader podIP : String) (ev : Event) (d : String) (cur : Nat) :
    ((RotationSidecar.runTick hash w leader podIP ev (some d) cur).cur = cur ∨
      ((RotationSidecar.runTick hash w leader podIP ev (some d) cur).cur = hash d ∧
        (RotationSidecar.installKey w d).2 = KOutcome.ok)) ∧
    ((Rotatoe.runTick hash w (some d) cur).cur = cur ∨
      (Rotatoe.runTick hash w (some d) cur).cur = hash d) := by
  constructor
  · have hb : (RotationSidecar.eventBranch hash w leader podIP (some d) cur).cur = cur ∨
        ((RotationSidecar.eventBranch hash w leader podIP (some d) cur).cur = hash d ∧
          (RotationSidecar.installKey w d).2 = KOutcome.ok) := by
      by_cases h0 : leader = ""
      · left
        simp [RotationSidecar.eventBranch, h0]
      · by_cases h1 : leaderHost leader ≠ podIP
        · left
          rw [RotationSidecar.eventBranch, if_neg h0, if_pos h1]
        · rw [RotationSidecar.eventBranch, if_neg h0, if_neg h1]
          by_cases h2 : hash d ≠ cur
          · rcases hik : RotationSidecar.installKey w d with ⟨s, o⟩
            cases o
            · right
              refine ⟨?_, ?_⟩
              · simp [RotationSidecar.detectAndRotate, h2, hik]
              · rfl
            · left
              simp [RotationSidecar.detectAndRotate, h2, hik]
            · left
              simp [RotationSidecar.detectAndRotate, h2, hik]
          · left
            simp [RotationSidecar.detectAndRotate, h2]
    cases ev
    · exact hb
    · exact hb
    · left; rfl
    · left; rfl
    · left; rfl
  · by_cases h2 : hash d ≠ cur
    · right
      rcases hik : Rotatoe.installKey w d with ⟨s, o⟩
      cases o <;> simp [Rotatoe.runTick, h2, hik]
    · left
      simp [Rotatoe.runTick, h2]

/-- C6 (code bug in rotation-sidecar `Run`, lines 139-141): the shutdown
signal branch executes a bare `break`, which in Go terminates only the
enclosing `select`, not the `for` loop, so the loop keeps iterating: the
signal tick performs no call, changes nothing, and the loop CONTINUES —
the post-loop "Exiting" code (lines 144-146) is unreachable.  The claim
says the loop stops iterating after a signal; the code does not. -/
theorem c6_signal_tick_loop_continues (hash : String → Nat) (w : World)
    (leader podIP : String) (readRes : Option String) (cur : Nat) :
    RotationSidecar.runTick hash w leader podIP Event.signal readRes cur =
      ⟨cur, [], TickOutcome.continues⟩ := rfl

/-- C7 counterexample: a timer tick while the watched file holds changed
readable content (fingerprint 3 vs committed 0), on the leader instance:
the tick makes NO call at all (in particular no file read), so no
detection happens on timer expiry. -/
theorem c7_timer_tick_skips_changed_content_cex :
    (RotationSidecar.runTick String.length wOnlyA "10.0.0.7:8300" "10.0.0.7"
      Event.timer (some "new") 0).calls = [] ∧
    String.length "new" ≠ 0 := by
  decide

/-- C7 (amended): on every expiry of the 600s timer the rotation-sidecar
loop only logs "Reconcile Timer." and performs no detection whatsoever:
no file read, no fingerprint comparison, no keyring call, fingerprint
unchanged.  Detection runs only on file-watch events. -/
theorem c7_timer_tick_no_detection (hash : String → Nat) (w : World)
    (leader podIP : String) (readRes : Option String) (cur : Nat) :
    RotationSidecar.runTick hash w leader podIP Event.timer readRes cur =
      ⟨cur, [], TickOutcome.continues⟩ := rfl

/-- C8 (code bug in both `installKey` variants): a successful
`KeyringList` that returns an empty response slice makes both variants
index `keyringList[0]` out of range (rotation-sidecar line 155/169,
rotatoe lines 143-145) — a Go runtime panic that crashes the process,
contradicting the claim that no keyring API response can crash the
rotation core. -/
theorem c8_empty_keyring_response_panics :
    (RotationSidecar.installKey wEmptyResp "B").2 = KOutcome.panicked ∧
    (Rotatoe.installKey wEmptyResp "B").2 = KOutcome.panicked := by
  decide

/-- C9 (confirmed): when the bytes read fingerprint to the committed
fingerprint, a tick of either variant issues zero mutating keyring calls
and leaves the committed fingerprint unchanged — re-running detection on
byte-identical content after a commit is a no-op. -/
theorem c9_unchanged_content_no_calls (hash : String → Nat) (w : World)
    (leader podIP : String) (ev : Event) (d : String) (cur : Nat)
    (h : hash d = cur) :
    (mutatingCalls (RotationSidecar.runTick hash w leader podIP ev (some d) cur).calls = [] ∧
      (RotationSidecar.runTick hash w leader podIP ev (some d) cur).cur = cur) ∧
    (mutatingCalls (Rotatoe.runTick hash w (some d) cur).calls = [] ∧
      (Rotatoe.runTick hash w (some d) cur).cur = cur) := by
  constructor
  · have hb : mutatingCalls (RotationSidecar.eventBranch hash w leader podIP (some d) cur).calls = [] ∧
        (RotationSidecar.eventBranch hash w leader podIP (some d) cur).cur = cur := by
      by_cases h0 : leader = ""
      · simp [RotationSidecar.eventBranch, h0, mutatingCalls, Call.isMutating]
      · by_cases h1 : leaderHost leader ≠ podIP
        · rw [RotationSidecar.eventBranch, if_neg h0, if_pos h1]
          exact ⟨rfl, rfl⟩
        · rw [RotationSidecar.eventBranch, if_neg h0, if_neg h1]
          simp [RotationSidecar.detectAndRotate, h, mutatingCalls, Call.isMutating]
    cases ev
    · exact hb
    · exact hb
    · exact ⟨rfl, rfl⟩
    · exact ⟨rfl, rfl⟩
    · exact ⟨rfl, rfl⟩
  · simp [Rotatoe.runTick, h, mutatingCalls, Call.isMutating]

/-- C9 witness: content "ab" whose fingerprint equals the committed 2. -/
theorem c9_unchanged_content_no_calls_witness :
    String.length "ab" = 2 ∧
    ((mutatingCalls (RotationSidecar.runTick String.length wOnlyA "1.2.3.4:8300"
        "1.2.3.4" Event.write (some "ab") 2).calls = [] ∧
      (RotationSidecar.runTick String.length wOnlyA "1.2.3.4:8300"
        "1.2.3.4" Event.write (some "ab") 2).cur = 2) ∧
     (mutatingCalls (Rotatoe.runTick String.length wOnlyA (some "ab") 2).calls = [] ∧
      (Rotatoe.runTick String.length wOnlyA (some "ab") 2).cur = 2)) :=
  ⟨rfl, c9_unchanged_content_no_calls String.length wOnlyA "1.2.3.4:8300"
    "1.2.3.4" Event.write "ab" 2 rfl⟩

/-- C10 (confirmed, implicit claim about rotation-sidecar `installKey`):
whenever the initial `KeyringList` succeeds (non-empty), `KeyringInstall`
succeeds and the first poll `KeyringList` succeeds (non-empty),
`installKey` returns nil on that same poll iteration — exactly two
`KeyringList` calls in the whole run — for EVERY response content: the
new key need not be present, no `KeyringUse` need have been attempted or
succeeded, and `KeyringRemove` failures are invisible; the caller then
commits the new fingerprint. -/
theorem c10_install_returns_nil_after_first_list (w : World) (k : String)
    (hash : String → Nat) (cur : Nat) (r0 r1 : KeyringResponse)
    (t0 t1 : List KeyringResponse)
    (h0 : w.listResp 0 = some (r0 :: t0))
    (hI : w.installOk = true)
    (h1 : w.listResp 1 = some (r1 :: t1))
    (hc : hash k ≠ cur) :
    (RotationSidecar.installKey w k).2 = KOutcome.ok ∧
    countList (RotationSidecar.installKey w k).1.trace = 2 ∧
    (RotationSidecar.detectAndRotate hash w (some k) cur []).cur = hash k := by
  have hik : RotationSidecar.installKey w k
      = RotationSidecar.pollLoop w k 100
          ⟨[Call.list (some (r0 :: t0)), Call.install k], 1⟩ := by
    simp [RotationSidecar.installKey, h0, hI]
  obtain ⟨u1, hu1, hall1, _⟩ := RotationSidecar.promoteLoop_ext k r1.Keys
    ⟨[Call.list (some (r0 :: t0)), Call.install k, Call.list (some (r1 :: t1))], 2⟩
  obtain ⟨u2, hu2, hall2⟩ := RotationSidecar.removeLoop_ext k r1.Keys
    (RotationSidecar.promoteLoop k r1.Keys
      ⟨[Call.list (some (r0 :: t0)), Call.install k, Call.list (some (r1 :: t1))], 2⟩)
  have hstep : RotationSidecar.pollLoop w k 100
      ⟨[Call.list (some (r0 :: t0)), Call.install k], 1⟩
      = (RotationSidecar.removeLoop k r1.Keys (RotationSidecar.promoteLoop k r1.Keys
          ⟨[Call.list (some (r0 :: t0)), Call.install k, Call.list (some (r1 :: t1))], 2⟩),
         KOutcome.ok) := by
    rw [show (100 : Nat) = 99 + 1 from rfl]
    simp [RotationSidecar.pollLoop, h1]
  refine ⟨?_, ?_, ?_⟩
  · rw [hik, hstep]
  · rw [hik, hstep]
    unfold countList
    rw [hu2, hu1]
    rw [List.filter_append, List.filter_append,
      filter_eq_nil_of_false (fun c hc2 => isList_false_of_use (hall1 c hc2)),
      filter_eq_nil_of_false (fun c hc2 => isList_false_of_isRemove (hall2 c hc2))]
    rfl
  · have hok : RotationSidecar.installKey w k
        = (RotationSidecar.removeLoop k r1.Keys (RotationSidecar.promoteLoop k r1.Keys
            ⟨[Call.list (some (r0 :: t0)), Call.install k, Call.list (some (r1 :: t1))], 2⟩),
           KOutcome.ok) := by
      rw [hik, hstep]
    simp [RotationSidecar.detectAndRotate, hc, hok]

/-- C10 witness: a world whose keyring never reports key "B" at all: the
first poll list succeeds, reporting only "A", and `installKey` still
returns nil with exactly two list calls; the caller commits fingerprint
1 over 0. -/
theorem c10_install_returns_nil_after_first_list_witness :
    wOnlyA.listResp 0 = some (respA :: []) ∧ wOnlyA.installOk = true ∧
    wOnlyA.listResp 1 = some (respA :: []) ∧ String.length "B" ≠ 0 ∧
    ((RotationSidecar.installKey wOnlyA "B").2 = KOutcome.ok ∧
      countList (RotationSidecar.installKey wOnlyA "B").1.trace = 2 ∧
      (RotationSidecar.detectAndRotate String.length wOnlyA (some "B") 0 []).cur
        = String.length "B") :=
  ⟨rfl, rfl, rfl, by decide,
    c10_install_returns_nil_after_first_list wOnlyA "B" String.length 0
      respA respA [] [] rfl rfl rfl (by decide)⟩
